import Mathlib

/-!
Verification of the time/deadline reasoning core of the Study Organizer
application (`app.py`): the time-token parser `parse_start_time`, the
month-grid calendar projection (`monthdayscalendar` / `events_by_date`),
and the deadline notifier (`check_and_notify_tasks` with its collaborator
`send_email`).

Modelling conventions:
* Python strings are modelled as Lean `String` / `List Char`; the regex
  `([01]?\d|2[0-3])[:\.]([0-5]\d)` is modelled by an explicit leftmost
  matcher whose alternatives are tried in Python's backtracking order.
  `\d` on a `str` pattern matches any Unicode decimal digit (category
  `Nd`), so it is modelled by the full `Nd` table (Unicode 14.0, as
  shipped with CPython 3.11's `unicodedata`): 66 contiguous runs of ten
  code points carrying the decimal values `0..9` in order, which is also
  exactly how Python's `int()` converts a matched group digit by digit.
  The literal classes `[01]`, `2`, `[0-3]`, `[0-5]` remain ASCII-only,
  as in the source pattern.
* `datetime.date` is modelled by `Date` (proleptic Gregorian calendar,
  `toordinal` as in CPython); date subtraction `(a - b).days` is
  `dateSub a b : Int`.
* The SMTP side effect inside `send_email` is modelled by an oracle
  `smtp : Nat → Except String Unit` giving the outcome (success or the
  exception text) of the k-th attempted delivery; the notifier threads
  the attempt counter and also returns the list of `(subject, body)`
  pairs it handed to `send_email`, making "email attempts" observable.
-/

namespace StudyOrg

/-! ## Time-token parser (`parse_start_time`, app.py lines 38-49) -/

/-- Start code points of the contiguous runs that make up the Unicode
category `Nd` (decimal digits), Unicode 14.0 as in CPython 3.11's
`unicodedata`; each run holds exactly ten code points whose decimal
values are `0..9` in order. -/
def ndStarts : List Nat :=
  [48, 1632, 1776, 1984, 2406, 2534, 2662, 2790, 2918, 3046, 3174, 3302,
   3430, 3558, 3664, 3792, 3872, 4160, 4240, 6112, 6160, 6470, 6608, 6784,
   6800, 6992, 7088, 7232, 7248, 42528, 43216, 43264, 43472, 43504, 43600,
   44016, 65296, 66720, 68912, 69734, 69872, 69942, 70096, 70384, 70736,
   70864, 71248, 71360, 71472, 71904, 72016, 72784, 73040, 73120, 92768,
   92864, 93008, 120782, 120792, 120802, 120812, 120822, 123200, 123632,
   125264, 130032]

/-- The start of the `Nd` run containing code point `n`, when `n` is a
Unicode decimal digit. -/
def ndRangeStart (n : Nat) : Option Nat :=
  ndStarts.find? (fun s => s ≤ n && n ≤ s + 9)

/-- Unicode decimal digit (category `Nd`), the model of the regex class
`\d` on a Python `str` pattern. -/
def isDig (c : Char) : Bool := (ndRangeStart c.toNat).isSome

/-- Numeric value of a digit character: its offset within its `Nd` run
(what Python's `int` assigns to it). -/
def dval (c : Char) : Nat :=
  match ndRangeStart c.toNat with
  | some s => c.toNat - s
  | none => 0

/-- The regex separator class `[:\.]`. -/
def isSep (c : Char) : Bool := c = ':' || c = '.'

/-- The regex class `[0-5]` (first minute digit). -/
def isMin1 (c : Char) : Bool := 48 ≤ c.toNat && c.toNat ≤ 53

/-- Anchored match of `[01]\d[:\.][0-5]\d` (first alternative of the hour
group with `[01]?` consuming one character), the first branch Python's
backtracking tries at each position. -/
def matchA2 : List Char → Option (Nat × Nat)
  | c0 :: c1 :: c2 :: c3 :: c4 :: _ =>
    if (c0 = '0' || c0 = '1') && isDig c1 && isSep c2 && isMin1 c3 && isDig c4 then
      some (10 * dval c0 + dval c1, 10 * dval c3 + dval c4)
    else
      none
  | _ => none

/-- Anchored match of `\d[:\.][0-5]\d` (first alternative with `[01]?`
consuming nothing), tried second. -/
def matchA1 : List Char → Option (Nat × Nat)
  | c0 :: c1 :: c2 :: c3 :: _ =>
    if isDig c0 && isSep c1 && isMin1 c2 && isDig c3 then
      some (dval c0, 10 * dval c2 + dval c3)
    else
      none
  | _ => none

/-- Anchored match of `2[0-3][:\.][0-5]\d` (second alternative of the hour
group), tried last. -/
def matchB : List Char → Option (Nat × Nat)
  | c0 :: c1 :: c2 :: c3 :: c4 :: _ =>
    if c0 = '2' && (48 ≤ c1.toNat && c1.toNat ≤ 51) && isSep c2 && isMin1 c3 && isDig c4 then
      some (20 + dval c1, 10 * dval c3 + dval c4)
    else
      none
  | _ => none

/-- Anchored match of the whole pattern `([01]?\d|2[0-3])[:\.]([0-5]\d)` at
the head of the list, alternatives in Python's order. -/
def matchHere (s : List Char) : Option (Nat × Nat) :=
  ((matchA2 s).orElse (fun _ => matchA1 s)).orElse (fun _ => matchB s)

/-- Model of `re.search`: try the anchored pattern at each position, leftmost first. -/
def findTime : List Char → Option (Nat × Nat)
  | [] => none
  | c :: rest =>
    match matchHere (c :: rest) with
    | some r => some r
    | none => findTime rest

/-- Model of `parse_start_time` (app.py lines 38-49): extract the first `HH:MM`/`HH.MM`
token; `(99, 99)` when the string is empty or no token occurs. -/
def parse_start_time (time_str : String) : Nat × Nat :=
  if time_str = "" then (99, 99)
  else
    match findTime time_str.toList with
    | some r => r
    | none => (99, 99)

/-! ## Dates (`datetime.date`, proleptic Gregorian calendar) -/

/-- A calendar date, as `datetime.date`. -/
structure Date where
  year : Nat
  month : Nat
  day : Nat
deriving DecidableEq, Repr

/-- Gregorian leap-year rule (`calendar.isleap`). -/
def isLeap (y : Nat) : Bool := y % 4 = 0 && (y % 100 ≠ 0 || y % 400 = 0)

/-- Number of days in a month (`calendar.monthrange(y, m)[1]`). -/
def month_length (y m : Nat) : Nat :=
  if m = 2 then (if isLeap y then 29 else 28)
  else if m = 4 || m = 6 || m = 9 || m = 11 then 30
  else 31

/-- Days in all years strictly before year `y` (as in CPython's
`datetime._days_before_year`). -/
def daysBeforeYear (y : Nat) : Nat :=
  365 * (y - 1) + (y - 1) / 4 - (y - 1) / 100 + (y - 1) / 400

/-- Days in the months of year `y` strictly before month `m`. -/
def daysBeforeMonth (y m : Nat) : Nat :=
  ((List.range (m - 1)).map (fun i => month_length y (i + 1))).sum

/-- Model of `datetime.date.toordinal`: day count with 0001-01-01 ↦ 1. -/
def toordinal (d : Date) : Nat :=
  daysBeforeYear d.year + daysBeforeMonth d.year d.month + d.day

/-- Python date subtraction `(a - b).days`. -/
def dateSub (a b : Date) : Int := (toordinal a : Int) - (toordinal b : Int)

/-- Model of `date.weekday()`: 0 = Monday, …, 6 = Sunday. -/
def weekday (d : Date) : Nat := (toordinal d + 6) % 7

/-- The fixed Monday-first English weekday names (keys of the schedule
dict, and the values of `strftime("%A")`). -/
def dayNames : List String :=
  ["Monday", "Tuesday", "Wednesday", "Thursday", "Friday", "Saturday", "Sunday"]

/-- Model of `weekday_name_from_date` (app.py line 101): `dt.strftime("%A")`. -/
def weekday_name_from_date (dt : Date) : String := dayNames.getD (weekday dt) ""

/-- Zero-pad to two digits (`%02d`, used by `str(date)`). -/
def pad2 (n : Nat) : String := if n < 10 then "0" ++ toString n else toString n

/-- Zero-pad to four digits (`%04d`, used by `str(date)`). -/
def pad4 (n : Nat) : String :=
  if n < 10 then "000" ++ toString n
  else if n < 100 then "00" ++ toString n
  else if n < 1000 then "0" ++ toString n
  else toString n

/-- Model of `str(datetime.date)`: ISO `YYYY-MM-DD`. -/
def dateISO (d : Date) : String :=
  pad4 d.year ++ "-" ++ pad2 d.month ++ "-" ++ pad2 d.day

/-! ## Month grid (`calendar.Calendar(firstweekday=0)`, app.py lines 277-285) -/

/-- The flat cell sequence produced by `Calendar.itermonthdays`: leading
zeros up to the weekday of day 1, the day numbers `1..n`, trailing zeros
completing the final week. -/
def monthCells (y m : Nat) : List Nat :=
  let fw := weekday ⟨y, m, 1⟩
  let n := month_length y m
  List.replicate fw 0 ++ (List.range n).map (· + 1) ++
    List.replicate ((7 - (fw + n) % 7) % 7) 0

/-- Split a flat list into consecutive chunks of 7 (the grouping
`[days[i:i+7] for i in range(0, len(days), 7)]` done by
`Calendar.monthdayscalendar`; a final chunk shorter than 7 is kept, though
it never occurs for month cells). -/
def chunk7 : List Nat → List (List Nat)
  | [] => []
  | c0 :: c1 :: c2 :: c3 :: c4 :: c5 :: c6 :: rest =>
    [c0, c1, c2, c3, c4, c5, c6] :: chunk7 rest
  | l => [l]

/-- Model of `cal.monthdayscalendar(year, month)` (app.py line 278): the month's
weeks, Monday-first, each a list of 7 day numbers with 0 as padding. -/
def monthdayscalendar (y m : Nat) : List (List Nat) := chunk7 (monthCells y m)

/-- Model of `days_in_month` (app.py line 282): the concrete (non-padding) day
numbers of the grid, in order. -/
def days_in_month (y m : Nat) : List Nat :=
  ((monthdayscalendar y m).flatten).filter (fun d => d ≠ 0)

/-! ## Data model (session state, app.py lines 15-32) -/

/-- A schedule entry dict `{course, room, time}`; `none` models an absent
key (the calendar view reads each field with `.get(key, '-')`). -/
structure ScheduleEntry where
  course : Option String
  room : Option String
  time : Option String
deriving DecidableEq, Repr

/-- A task dict `{title, deadline, done, notified}`. -/
structure Task where
  title : String
  deadline : Date
  done : Bool
  notified : Bool
deriving DecidableEq, Repr

/-- The schedule dict, read only through `.get(weekday_name, [])`:
modelled as the total lookup function weekday-name ↦ bucket (a name
absent from the dict yields `[]`). -/
abbrev Schedule : Type := String → List ScheduleEntry

/-- The email configuration dict `{sender, password, to}` (the dict key
`"to"` is a Lean keyword, so the field is named `recipient`). -/
structure EmailConfig where
  sender : String
  password : String
  recipient : String
deriving DecidableEq, Repr

/-! ## Calendar event map (`events_by_date`, app.py lines 280-301) -/

/-- The tag distinguishing the two event kinds in a calendar cell. -/
inductive EvKind where
  | cls
  | task
deriving DecidableEq, Repr

/-- A calendar cell event: kind tag and display text. -/
abbrev Event : Type := EvKind × String

/-- Model of `dict.get(key, '-')`: the field's value, `-` when the key is absent
(app.py line 294). -/
def getDash : Option String → String
  | some s => s
  | none => "-"

/-- The class-event display text `f"{time} {course} ({room})"`
(app.py line 294). -/
def class_text (c : ScheduleEntry) : String :=
  getDash c.time ++ " " ++ getDash c.course ++ " (" ++ getDash c.room ++ ")"

/-- The empty event map keyed by the month's concrete dates
(app.py lines 281-285), insertion order = day order. -/
def init_events (y m : Nat) : List (Date × List Event) :=
  (days_in_month y m).map (fun d => (⟨y, m, d⟩, []))

/-- The class-mapping loop (app.py lines 289-295): for every date key,
append one class event per entry of its weekday's bucket. -/
def add_classes (schedule : Schedule) (mp : List (Date × List Event)) :
    List (Date × List Event) :=
  mp.map (fun p =>
    (p.1, p.2 ++ (schedule (weekday_name_from_date p.1)).map
      (fun c => (EvKind.cls, class_text c))))

/-- One iteration of the task-mapping loop (app.py lines 298-301): append
a task event to the entry whose key equals the task's deadline, if any. -/
def add_task (mp : List (Date × List Event)) (t : Task) :
    List (Date × List Event) :=
  mp.map (fun p =>
    if t.deadline = p.1 then (p.1, p.2 ++ [(EvKind.task, "Deadline: " ++ t.title)])
    else p)

/-- Model of `events_by_date` (app.py lines 280-301): the finished date ↦ events
map for the selected month. -/
def events_by_date (y m : Nat) (schedule : Schedule) (tasks : List Task) :
    List (Date × List Event) :=
  tasks.foldl add_task (add_classes schedule (init_events y m))

/-- The task events a cell at date `dt` ends up with: one per task whose
deadline is exactly `dt`, in task-list order. -/
def task_events (tasks : List Task) (dt : Date) : List Event :=
  (tasks.filter (fun t => t.deadline = dt)).map
    (fun t => (EvKind.task, "Deadline: " ++ t.title))

/-- The class events a cell at date `dt` ends up with: one per entry of
`dt`'s weekday bucket, in bucket order. -/
def cls_events (schedule : Schedule) (dt : Date) : List Event :=
  (schedule (weekday_name_from_date dt)).map (fun c => (EvKind.cls, class_text c))

/-! ## Email sending (`send_email`, app.py lines 52-72) -/

/-- Model of `send_email` (app.py lines 52-72). The SMTP interaction (connect,
login, sendmail) is the external effect `attempt`: `Except.ok ()` when
delivery succeeds, `Except.error e` when any exception `e` is raised
(timeout, auth failure, ...). Returns Python's `(ok, message)` pair. -/
def send_email (cfg : EmailConfig) (attempt : Except String Unit) : Bool × String :=
  if cfg.sender = "" || cfg.password = "" || cfg.recipient = "" then
    (false, "Email not configured.")
  else
    match attempt with
    | Except.ok _ => (true, "Email sent.")
    | Except.error e => (false, "Email error: " ++ e)

/-! ## Deadline notifier (`check_and_notify_tasks`, app.py lines 75-98) -/

/-- The in-app approaching-deadline message (app.py line 87):
`f"⚠️ '{title}' deadline dalam {delta} hari (deadline: {deadline})"`. -/
def approachingMsg (t : Task) (delta : Int) : String :=
  "⚠️ '" ++ t.title ++ "' deadline dalam " ++ toString delta ++
    " hari (deadline: " ++ dateISO t.deadline ++ ")"

/-- The reminder email subject (app.py line 90). -/
def mailSubject : String := "Reminder Tugas — Study Organizer"

/-- The reminder email body (app.py line 91). -/
def mailBody (t : Task) : String :=
  "Reminder: Tugas '" ++ t.title ++ "' akan deadline pada " ++ dateISO t.deadline ++
    ".\n\nIni email otomatis dari Study Organizer."

/-- The delivery-failure message (app.py line 97):
`f"🛑 Email gagal dikirim: {msg}"`. -/
def failMsg (msg : String) : String := "🛑 Email gagal dikirim: " ++ msg

/-- Result of one notifier run: the in-app message list it returns, the
task list after its in-place `notified` updates, and the `(subject, body)`
pairs passed to `send_email` (the observable email attempts). -/
structure NotifyOut where
  msgs : List String
  tasks : List Task
  attempts : List (String × String)
deriving DecidableEq, Repr

/-- The notifier's scan loop (app.py lines 82-98). `k` counts the email
attempts made so far; `smtp k` is the SMTP outcome of attempt `k`. -/
def notify_go (cfg : EmailConfig) (smtp : Nat → Except String Unit) (today : Date) :
    Nat → List Task → NotifyOut
  | _, [] => ⟨[], [], []⟩
  | k, t :: ts =>
    if t.done then
      let r := notify_go cfg smtp today k ts
      ⟨r.msgs, t :: r.tasks, r.attempts⟩
    else
      let delta := dateSub t.deadline today
      if delta ≤ 2 then
        if t.notified then
          let r := notify_go cfg smtp today k ts
          ⟨approachingMsg t delta :: r.msgs, t :: r.tasks, r.attempts⟩
        else
          let res := send_email cfg (smtp k)
          let r := notify_go cfg smtp today (k + 1) ts
          if res.1 then
            ⟨approachingMsg t delta :: r.msgs,
             { t with notified := true } :: r.tasks,
             (mailSubject, mailBody t) :: r.attempts⟩
          else
            ⟨approachingMsg t delta :: failMsg res.2 :: r.msgs,
             { t with notified := true } :: r.tasks,
             (mailSubject, mailBody t) :: r.attempts⟩
      else
        let r := notify_go cfg smtp today k ts
        ⟨r.msgs, t :: r.tasks, r.attempts⟩

/-- Model of `check_and_notify_tasks` (app.py lines 75-98): scan the whole task
list (horizon hardcoded to 2 days). -/
def check_and_notify_tasks (cfg : EmailConfig) (smtp : Nat → Except String Unit)
    (today : Date) (tasks : List Task) : NotifyOut :=
  notify_go cfg smtp today 0 tasks

/-! ## Spec-side predicate: occurrence of a time token -/

/-- A character list that denotes an hour in `0..23` written with one or
two (ASCII) digits. -/
def isHourStr (hs : List Char) : Prop :=
  (∃ c, hs = [c] ∧ isDig c = true) ∨
  (∃ c d, hs = [c, d] ∧ isDig c = true ∧ isDig d = true ∧ 10 * dval c + dval d ≤ 23)

/-- The string contains (somewhere) a one-or-two-digit hour in `0..23`
followed by `:` or `.` and a two-digit minute in `00..59`. -/
def hasTimeTok (s : List Char) : Prop :=
  ∃ pre hs sep m1 m2 post,
    s = pre ++ hs ++ sep :: m1 :: m2 :: post ∧
    isHourStr hs ∧ isSep sep = true ∧ isMin1 m1 = true ∧ isDig m2 = true

/-- The strict lexicographic order on `(hour, minute)` pairs: the order
Python uses when tuples produced by `parse_start_time` are compared
during `sorted(times, key=parse_start_time)` (app.py line 132). -/
def tupLt (a b : Nat × Nat) : Prop := a.1 < b.1 ∨ (a.1 = b.1 ∧ a.2 < b.2)

/-- Test whether `pat` is a prefix of the second character list. -/
def prefixTok : List Char → List Char → Bool
  | [], _ => true
  | _ :: _, [] => false
  | p :: ps, c :: cs => p = c && prefixTok ps cs

/-- Test whether `pat` occurs as a contiguous substring of the second
character list. -/
def containsTok (pat : List Char) : List Char → Bool
  | [] => pat.isEmpty
  | c :: cs => prefixTok pat (c :: cs) || containsTok pat cs

/-- Pairwise frame condition: the right task agrees with the left on every
field except possibly `notified`. -/
def frameEq (a b : Task) : Prop :=
  b.title = a.title ∧ b.deadline = a.deadline ∧ b.done = a.done

/-! ## Sanity checks on concrete inputs -/

example : parse_start_time "07:50-09:30" = (7, 50) := by decide
example : parse_start_time "7.05" = (7, 5) := by decide
example : parse_start_time "TBA" = (99, 99) := by decide
example : parse_start_time "" = (99, 99) := by decide
example : parse_start_time "23:45" = (23, 45) := by decide
example : parse_start_time "25:30" = (5, 30) := by decide
example : parse_start_time "٣.05" = (3, 5) := by decide
example : parse_start_time "07:5٥" = (7, 55) := by decide
example : parse_start_time "1٥.30" = (15, 30) := by decide
example : parse_start_time "١٥:30" = (5, 30) := by decide
example : parse_start_time "٥٥" = (99, 99) := by decide
example : weekday ⟨2024, 1, 1⟩ = 0 := by decide
example : weekday ⟨2024, 2, 29⟩ = 3 := by decide
example : dateISO ⟨2024, 1, 5⟩ = "2024-01-05" := by decide
example : monthdayscalendar 2024 2 =
    [[0, 0, 0, 1, 2, 3, 4], [5, 6, 7, 8, 9, 10, 11], [12, 13, 14, 15, 16, 17, 18],
     [19, 20, 21, 22, 23, 24, 25], [26, 27, 28, 29, 0, 0, 0]] := by decide
example : days_in_month 2023 2 = (List.range 28).map (· + 1) := by decide

/-! ## Parser lemmas -/

lemma ndRangeStart_ascii {n : Nat} (h1 : 48 ≤ n) (h2 : n ≤ 57) :
    ndRangeStart n = some 48 := by
  unfold ndRangeStart ndStarts
  rw [List.find?_cons_of_pos]
  simp only [Bool.and_eq_true, decide_eq_true_eq]
  omega

lemma isDig_dval_of_ascii {c : Char} (h1 : 48 ≤ c.toNat) (h2 : c.toNat ≤ 57) :
    isDig c = true ∧ dval c = c.toNat - 48 := by
  unfold isDig dval
  rw [ndRangeStart_ascii h1 h2]
  exact ⟨rfl, rfl⟩

lemma dval_le_of_isDig {c : Char} (h : isDig c = true) : dval c ≤ 9 := by
  unfold isDig ndRangeStart at h
  unfold dval ndRangeStart
  cases hf : ndStarts.find? (fun s => s ≤ c.toNat && c.toNat ≤ s + 9) with
  | none => rw [hf] at h; simp at h
  | some s =>
    have hp := List.find?_some hf
    simp only [Bool.and_eq_true, decide_eq_true_eq] at hp
    show c.toNat - s ≤ 9
    omega

lemma dval_le_of_isMin1 {c : Char} (h : isMin1 c = true) : dval c ≤ 5 := by
  simp only [isMin1, Bool.and_eq_true, decide_eq_true_eq] at h
  have hd := (isDig_dval_of_ascii h.1 (by omega)).2
  omega

lemma isDig_of_isMin1 {c : Char} (h : isMin1 c = true) : isDig c = true := by
  simp only [isMin1, Bool.and_eq_true, decide_eq_true_eq] at h
  exact (isDig_dval_of_ascii h.1 (by omega)).1

lemma matchA2_range {s : List Char} {h m : Nat} (he : matchA2 s = some (h, m)) :
    h ≤ 23 ∧ m ≤ 59 := by
  match s with
  | [] => simp [matchA2] at he
  | [_] => simp [matchA2] at he
  | [_, _] => simp [matchA2] at he
  | [_, _, _] => simp [matchA2] at he
  | [_, _, _, _] => simp [matchA2] at he
  | c0 :: c1 :: c2 :: c3 :: c4 :: rest =>
    simp only [matchA2] at he
    split at he
    · rename_i hc
      simp only [Bool.and_eq_true, Bool.or_eq_true, decide_eq_true_eq] at hc
      obtain ⟨⟨⟨⟨h01, hd1⟩, -⟩, hm1⟩, hd4⟩ := hc
      have b1 := dval_le_of_isDig hd1
      have b3 := dval_le_of_isMin1 hm1
      have b4 := dval_le_of_isDig hd4
      have b0 : dval c0 ≤ 1 := by
        rcases h01 with h0 | h0 <;> subst h0 <;> decide
      cases he
      constructor <;> omega
    · cases he

lemma matchA1_range {s : List Char} {h m : Nat} (he : matchA1 s = some (h, m)) :
    h ≤ 23 ∧ m ≤ 59 := by
  match s with
  | [] => simp [matchA1] at he
  | [_] => simp [matchA1] at he
  | [_, _] => simp [matchA1] at he
  | [_, _, _] => simp [matchA1] at he
  | c0 :: c1 :: c2 :: c3 :: rest =>
    simp only [matchA1] at he
    split at he
    · rename_i hc
      simp only [Bool.and_eq_true, decide_eq_true_eq] at hc
      obtain ⟨⟨⟨hd0, -⟩, hm2⟩, hd3⟩ := hc
      have b0 := dval_le_of_isDig hd0
      have b2 := dval_le_of_isMin1 hm2
      have b3 := dval_le_of_isDig hd3
      cases he
      constructor <;> omega
    · cases he

lemma matchB_range {s : List Char} {h m : Nat} (he : matchB s = some (h, m)) :
    h ≤ 23 ∧ m ≤ 59 := by
  match s with
  | [] => simp [matchB] at he
  | [_] => simp [matchB] at he
  | [_, _] => simp [matchB] at he
  | [_, _, _] => simp [matchB] at he
  | [_, _, _, _] => simp [matchB] at he
  | c0 :: c1 :: c2 :: c3 :: c4 :: rest =>
    simp only [matchB] at he
    split at he
    · rename_i hc
      simp only [Bool.and_eq_true, decide_eq_true_eq] at hc
      obtain ⟨⟨⟨⟨-, h13⟩, -⟩, hm3⟩, hd4⟩ := hc
      have b1 : dval c1 ≤ 3 := by
        have hd := (isDig_dval_of_ascii h13.1 (by omega)).2
        omega
      have b3 := dval_le_of_isMin1 hm3
      have b4 := dval_le_of_isDig hd4
      cases he
      constructor <;> omega
    · cases he

lemma matchHere_range {s : List Char} {h m : Nat} (he : matchHere s = some (h, m)) :
    h ≤ 23 ∧ m ≤ 59 := by
  unfold matchHere at he
  cases hA2 : matchA2 s with
  | some r2 =>
    rw [hA2] at he
    simp only [Option.some_orElse'] at he
    exact matchA2_range (hA2.trans he)
  | none =>
    rw [hA2] at he
    simp only [Option.none_orElse'] at he
    cases hA1 : matchA1 s with
    | some r1 =>
      rw [hA1] at he
      simp only [Option.some_orElse'] at he
      exact matchA1_range (hA1.trans he)
    | none =>
      rw [hA1] at he
      simp only [Option.none_orElse'] at he
      exact matchB_range he

lemma findTime_range : ∀ {s : List Char} {h m : Nat},
    findTime s = some (h, m) → h ≤ 23 ∧ m ≤ 59
  | [], _, _, he => by simp [findTime] at he
  | c :: rest, h, m, he => by
    rw [findTime] at he
    cases hm : matchHere (c :: rest) with
    | some r =>
      rw [hm] at he
      cases he
      exact matchHere_range hm
    | none =>
      rw [hm] at he
      exact findTime_range he

/-- If the parser finds a match, the string really contains a time token. -/
lemma hasTimeTok_of_matchHere {s : List Char} {r : Nat × Nat}
    (he : matchHere s = some r) : hasTimeTok s := by
  unfold matchHere at he
  cases hA2 : matchA2 s with
  | some r2 =>
    match s, hA2 with
    | c0 :: c1 :: c2 :: c3 :: c4 :: rest, hA2 =>
      simp only [matchA2] at hA2
      split at hA2
      · rename_i hc
        simp only [Bool.and_eq_true, Bool.or_eq_true, decide_eq_true_eq] at hc
        obtain ⟨⟨⟨⟨h01, hd1⟩, hsep⟩, hm1⟩, hd4⟩ := hc
        refine ⟨[], [c0, c1], c2, c3, c4, rest, by simp, ?_, hsep, hm1, hd4⟩
        right
        refine ⟨c0, c1, rfl, ?_, hd1, ?_⟩
        · rcases h01 with h0 | h0 <;> subst h0 <;> decide
        · have b0 : dval c0 ≤ 1 := by
            rcases h01 with h0 | h0 <;> subst h0 <;> decide
          have b1 := dval_le_of_isDig hd1
          omega
      · cases hA2
  | none =>
    rw [hA2] at he
    simp only [Option.none_orElse'] at he
    cases hA1 : matchA1 s with
    | some r1 =>
      match s, hA1 with
      | c0 :: c1 :: c2 :: c3 :: rest, hA1 =>
        simp only [matchA1] at hA1
        split at hA1
        · rename_i hc
          simp only [Bool.and_eq_true, decide_eq_true_eq] at hc
          obtain ⟨⟨⟨hd0, hsep⟩, hm2⟩, hd3⟩ := hc
          exact ⟨[], [c0], c1, c2, c3, rest, by simp, Or.inl ⟨c0, rfl, hd0⟩, hsep, hm2, hd3⟩
        · cases hA1
    | none =>
      rw [hA1] at he
      simp only [Option.none_orElse'] at he
      match s, he with
      | c0 :: c1 :: c2 :: c3 :: c4 :: rest, he =>
        simp only [matchB] at he
        split at he
        · rename_i hc
          simp only [Bool.and_eq_true, decide_eq_true_eq] at hc
          obtain ⟨⟨⟨⟨h2, h13⟩, hsep⟩, hm3⟩, hd4⟩ := hc
          refine ⟨[], [c0, c1], c2, c3, c4, rest, by simp, ?_, hsep, hm3, hd4⟩
          right
          subst h2
          refine ⟨'2', c1, rfl, by decide, ?_, ?_⟩
          · exact (isDig_dval_of_ascii h13.1 (by omega)).1
          · have hd1 := (isDig_dval_of_ascii h13.1 (by omega)).2
            have h2v : dval '2' = 2 := by decide
            omega
        · cases he

lemma hasTimeTok_of_findTime : ∀ {s : List Char} {r : Nat × Nat},
    findTime s = some r → hasTimeTok s
  | [], _, he => by simp [findTime] at he
  | c :: rest, r, he => by
    rw [findTime] at he
    cases hm : matchHere (c :: rest) with
    | some r2 =>
      exact hasTimeTok_of_matchHere hm
    | none =>
      rw [hm] at he
      obtain ⟨pre, hs, sep, m1, m2, post, heq, hh, hsep, hm1, hd2⟩ :=
        hasTimeTok_of_findTime he
      exact ⟨c :: pre, hs, sep, m1, m2, post, by simp [heq], hh, hsep, hm1, hd2⟩

/-- Shared range lemma: any parse result is a valid time or the sentinel. -/
lemma parse_start_time_range (s : String) :
    ((parse_start_time s).1 ≤ 23 ∧ (parse_start_time s).2 ≤ 59) ∨
      parse_start_time s = (99, 99) := by
  unfold parse_start_time
  split
  · right; rfl
  · cases hf : findTime s.toList with
    | some r =>
      left
      obtain ⟨h, m⟩ := r
      simpa using findTime_range hf
    | none => right; rfl

/-! ## Claim theorems: time-token parser -/

/-- C1: `parse_start_time` is total: on every input it returns either a
pair `(h, m)` with `h ≤ 23` and `m ≤ 59` or exactly the sentinel
`(99, 99)` (being a Lean function, it throws nothing); and on every
string containing no one-or-two-digit hour in `0..23` followed by `:` or
`.` and a two-digit minute in `00..59`, it returns exactly `(99, 99)`. -/
theorem C1_parse_start_time_total (s : String) :
    (((parse_start_time s).1 ≤ 23 ∧ (parse_start_time s).2 ≤ 59) ∨
      parse_start_time s = (99, 99)) ∧
    (¬ hasTimeTok s.toList → parse_start_time s = (99, 99)) := by
  refine ⟨parse_start_time_range s, fun hno => ?_⟩
  unfold parse_start_time
  split
  · rfl
  · cases hf : findTime s.toList with
    | some r => exact absurd (hasTimeTok_of_findTime hf) hno
    | none => rfl

/-- Witness for C1 at the concrete inputs `""` and `"TBA"` (the second
hypothesis is discharged by exhibiting that `"TBA"` contains no time
token). -/
theorem C1_parse_start_time_total_witness :
    parse_start_time "TBA" = (99, 99) := by
  refine (C1_parse_start_time_total "TBA").2 ?_
  rintro ⟨pre, hs, sep, m1, m2, post, heq, hh, hsep, -, -⟩
  rcases hh with ⟨c, rfl, hc⟩ | ⟨c, d, rfl, hc, -, -⟩
  · have hlen := congrArg List.length heq
    simp at hlen
    omega
  · have hlen := congrArg List.length heq
    simp at hlen
    omega

/-- C8: the sentinel `(99, 99)` sorts strictly after every valid time in
the lexicographic tuple order used as the sort key: every `(h, m)` with
`h ≤ 23`, `m ≤ 59` satisfies `tupLt (h, m) (99, 99)`, and consequently
every `parse_start_time` result is the sentinel or sorts strictly before
it. -/
theorem C8_sentinel_sorts_last :
    (∀ h m : Nat, h ≤ 23 → m ≤ 59 → tupLt (h, m) (99, 99)) ∧
    (∀ s : String, parse_start_time s = (99, 99) ∨
      tupLt (parse_start_time s) (99, 99)) := by
  constructor
  · intro h m hh hm
    left
    omega
  · intro s
    rcases parse_start_time_range s with ⟨hh, -⟩ | hs
    · right
      left
      omega
    · left
      exact hs

/-- Witness for C8 at the concrete valid time `(23, 59)` and the concrete
string `"TBA"`. -/
theorem C8_sentinel_sorts_last_witness :
    tupLt (23, 59) (99, 99) ∧
      (parse_start_time "TBA" = (99, 99) ∨
        tupLt (parse_start_time "TBA") (99, 99)) :=
  ⟨C8_sentinel_sorts_last.1 23 59 (by decide) (by decide),
   C8_sentinel_sorts_last.2 "TBA"⟩

/-! ## Calendar lemmas -/

lemma chunk7_flatten : ∀ l : List Nat, (chunk7 l).flatten = l
  | [] => rfl
  | [_] => rfl
  | [_, _] => rfl
  | [_, _, _] => rfl
  | [_, _, _, _] => rfl
  | [_, _, _, _, _] => rfl
  | [_, _, _, _, _, _] => rfl
  | c0 :: c1 :: c2 :: c3 :: c4 :: c5 :: c6 :: rest => by
    have ih := chunk7_flatten rest
    simp [chunk7, ih]

lemma chunk7_mem_length : ∀ l : List Nat, 7 ∣ l.length →
    ∀ w ∈ chunk7 l, w.length = 7
  | [], _, w, hw => by simp [chunk7] at hw
  | [_], hd, w, hw => by simp at hd
  | [_, _], hd, w, hw => by simp at hd; omega
  | [_, _, _], hd, w, hw => by simp at hd; omega
  | [_, _, _, _], hd, w, hw => by simp at hd; omega
  | [_, _, _, _, _], hd, w, hw => by simp at hd; omega
  | [_, _, _, _, _, _], hd, w, hw => by simp at hd; omega
  | c0 :: c1 :: c2 :: c3 :: c4 :: c5 :: c6 :: rest, hd, w, hw => by
    simp only [chunk7, List.mem_cons] at hw
    rcases hw with rfl | hw
    · rfl
    · refine chunk7_mem_length rest ?_ w hw
      simp only [List.length_cons] at hd
      omega

lemma monthCells_length_dvd (y m : Nat) : 7 ∣ (monthCells y m).length := by
  unfold monthCells
  simp only [List.length_append, List.length_replicate, List.length_map,
    List.length_range]
  omega

lemma days_in_month_eq (y m : Nat) :
    days_in_month y m = (List.range (month_length y m)).map (· + 1) := by
  unfold days_in_month monthdayscalendar
  rw [chunk7_flatten]
  unfold monthCells
  simp only [List.filter_append, List.filter_replicate, decide_not]
  simp only [decide_True, Bool.not_true, Bool.false_eq_true, if_false,
    List.nil_append, List.append_nil]
  rw [List.filter_map]
  rw [List.filter_eq_self.mpr]
  intro a _
  simp

lemma monthdayscalendar_weeks (y m : Nat) :
    ∀ w ∈ monthdayscalendar y m, w.length = 7 :=
  chunk7_mem_length (monthCells y m) (monthCells_length_dvd y m)

lemma days_in_month_nodup (y m : Nat) : (days_in_month y m).Nodup := by
  rw [days_in_month_eq]
  exact (List.nodup_range (month_length y m)).map (fun a b h => by omega)

/-! ## Event-map lemmas -/

lemma foldl_add_task : ∀ (ts : List Task) (mp : List (Date × List Event)),
    ts.foldl add_task mp = mp.map (fun p => (p.1, p.2 ++ task_events ts p.1))
  | [], mp => by
    simp [task_events, List.foldl_nil]
  | t :: ts, mp => by
    rw [List.foldl_cons, foldl_add_task ts (add_task mp t)]
    unfold add_task
    rw [List.map_map]
    refine List.map_congr_left ?_
    intro p _
    simp only [Function.comp_apply]
    by_cases h : t.deadline = p.1
    · simp [h, task_events, List.filter_cons, List.append_assoc]
    · simp [h, task_events, List.filter_cons]

lemma events_by_date_eq (y m : Nat) (schedule : Schedule) (tasks : List Task) :
    events_by_date y m schedule tasks =
      (days_in_month y m).map (fun d =>
        (⟨y, m, d⟩, cls_events schedule ⟨y, m, d⟩ ++ task_events tasks ⟨y, m, d⟩)) := by
  unfold events_by_date
  rw [foldl_add_task]
  unfold add_classes init_events cls_events
  simp [List.map_map, Function.comp]

lemma lookup_map_date {β : Type} (y m : Nat) (f : Nat → β) :
    ∀ (l : List Nat), l.Nodup → ∀ d ∈ l,
      List.lookup (⟨y, m, d⟩ : Date) (l.map (fun d' => ((⟨y, m, d'⟩ : Date), f d'))) =
        some (f d)
  | [], _, d, hd => by simp at hd
  | d' :: l, hnd, d, hd => by
    simp only [List.map_cons, List.lookup_cons]
    rcases List.mem_cons.mp hd with rfl | hmem
    · simp
    · have hne : d ≠ d' := by
        rintro rfl
        exact (List.nodup_cons.mp hnd).1 hmem
      have hbeq : ((⟨y, m, d⟩ : Date) == (⟨y, m, d'⟩ : Date)) = false := by
        rw [beq_eq_false_iff_ne]
        intro h
        exact hne (congrArg Date.day h)
      rw [hbeq]
      exact lookup_map_date y m f l (List.nodup_cons.mp hnd).2 d hmem

lemma length_mul_seven_of_all {l : List (List Nat)} (h : ∀ w ∈ l, w.length = 7) :
    l.length * 7 = l.flatten.length := by
  induction l with
  | nil => simp
  | cons w ws ih =>
    simp only [List.flatten_cons, List.length_append, List.length_cons]
    rw [h w (List.mem_cons_self w ws)]
    have hws := ih (fun w' hw' => h w' (List.mem_cons_of_mem _ hw'))
    omega

/-! ## Claim theorems: calendar projection -/

/-- C7: for every `(year, month)` with `month ∈ 1..12`, the month grid
consists of whole weeks of exactly 7 cells (weeks × 7 = total cells); the
non-padding cells are exactly the day numbers `1..n` where `n` is the
standard month length (`28/29/30/31`, `29` for February in leap years);
and the event map is keyed precisely by those non-padding days, so
padding cells are never looked up against the schedule or task list. -/
theorem C7_month_grid (y m : Nat) (schedule : Schedule) (tasks : List Task)
    (_hm1 : 1 ≤ m) (_hm2 : m ≤ 12) :
    (monthdayscalendar y m).length * 7 = ((monthdayscalendar y m).flatten).length ∧
    ((monthdayscalendar y m).all (fun w => w.length = 7) = true) ∧
    days_in_month y m = (List.range (month_length y m)).map (· + 1) ∧
    (days_in_month y m).length = month_length y m ∧
    (month_length y m = 28 ∨ month_length y m = 29 ∨
      month_length y m = 30 ∨ month_length y m = 31) ∧
    (month_length y 2 = if isLeap y then 29 else 28) ∧
    (events_by_date y m schedule tasks).map Prod.fst =
      (days_in_month y m).map (fun d => (⟨y, m, d⟩ : Date)) := by
  have hweeks := monthdayscalendar_weeks y m
  refine ⟨?_, ?_, days_in_month_eq y m, ?_, ?_, ?_, ?_⟩
  · exact length_mul_seven_of_all hweeks
  · rw [List.all_eq_true]
    intro w hw
    simp [hweeks w hw]
  · rw [days_in_month_eq]
    simp
  · unfold month_length
    split
    · split <;> simp
    · split <;> simp
  · rfl
  · rw [events_by_date_eq]
    simp [List.map_map, Function.comp]

/-- Witness for C7 at the concrete month February 2024 (a leap year),
with an empty schedule and task list. -/
theorem C7_month_grid_witness :
    (monthdayscalendar 2024 2).length * 7 = ((monthdayscalendar 2024 2).flatten).length ∧
    ((monthdayscalendar 2024 2).all (fun w => w.length = 7) = true) ∧
    days_in_month 2024 2 = (List.range (month_length 2024 2)).map (· + 1) ∧
    (days_in_month 2024 2).length = month_length 2024 2 ∧
    (month_length 2024 2 = 28 ∨ month_length 2024 2 = 29 ∨
      month_length 2024 2 = 30 ∨ month_length 2024 2 = 31) ∧
    (month_length 2024 2 = if isLeap 2024 then 29 else 28) ∧
    (events_by_date 2024 2 (fun _ => []) []).map Prod.fst =
      (days_in_month 2024 2).map (fun d => (⟨2024, 2, d⟩ : Date)) :=
  C7_month_grid 2024 2 (fun _ => []) [] (by decide) (by decide)

/-- C2: for every concrete (non-padding) date of the month grid, the event
map holds exactly one class event per entry of that date's weekday bucket,
in bucket order, with text `"{time} {course} ({room})"` (`-` for a missing
field), followed by exactly one task event `"Deadline: {title}"` per task
whose deadline equals the date, in task-list order and irrespective of the
task's `done`/`notified` flags; all class events precede all task events. -/
theorem C2_cell_events (y m d : Nat) (schedule : Schedule) (tasks : List Task)
    (hd : d ∈ days_in_month y m) :
    List.lookup (⟨y, m, d⟩ : Date) (events_by_date y m schedule tasks) =
      some ((schedule (weekday_name_from_date ⟨y, m, d⟩)).map
          (fun c => ((EvKind.cls, class_text c) : Event)) ++
        (tasks.filter (fun t => t.deadline = ⟨y, m, d⟩)).map
          (fun t => ((EvKind.task, "Deadline: " ++ t.title) : Event))) := by
  rw [events_by_date_eq]
  simpa [cls_events, task_events] using
    lookup_map_date y m
      (fun d' => cls_events schedule ⟨y, m, d'⟩ ++ task_events tasks ⟨y, m, d'⟩)
      (days_in_month y m) (days_in_month_nodup y m) d hd

/-- Witness for C2 at the concrete date 2024-01-01 (a Monday), with a
two-entry Monday bucket (one entry missing all fields) and two tasks, one
of which (already done and notified) falls due that day. -/
theorem C2_cell_events_witness :
    List.lookup (⟨2024, 1, 1⟩ : Date)
      (events_by_date 2024 1
        (fun day => if day = "Monday" then
          [⟨some "Algo", some "C212", some "07:50-09:30"⟩, ⟨none, none, none⟩] else [])
        [⟨"HW1", ⟨2024, 1, 1⟩, true, true⟩, ⟨"Other", ⟨2024, 2, 5⟩, false, false⟩]) =
      some ((((fun day => if day = "Monday" then
          [(⟨some "Algo", some "C212", some "07:50-09:30"⟩ : ScheduleEntry),
           ⟨none, none, none⟩] else []) :
            Schedule) (weekday_name_from_date ⟨2024, 1, 1⟩)).map
          (fun c => ((EvKind.cls, class_text c) : Event)) ++
        (([⟨"HW1", ⟨2024, 1, 1⟩, true, true⟩,
           (⟨"Other", ⟨2024, 2, 5⟩, false, false⟩ : Task)]).filter
            (fun t => t.deadline = ⟨2024, 1, 1⟩)).map
          (fun t => ((EvKind.task, "Deadline: " ++ t.title) : Event))) :=
  C2_cell_events 2024 1 1
    (fun day => if day = "Monday" then
      [⟨some "Algo", some "C212", some "07:50-09:30"⟩, ⟨none, none, none⟩] else [])
    [⟨"HW1", ⟨2024, 1, 1⟩, true, true⟩, ⟨"Other", ⟨2024, 2, 5⟩, false, false⟩]
    (by decide)

/-! ## Notifier claim theorems -/

/-- C3: for a task that is pending (not done), within the 2-day horizon
and not yet notified, a failed email send yields both the
approaching-deadline message and a distinct delivery-failure message
carrying the error description, still sets `notified := true`, records
exactly one email attempt, and the scan continues over the remaining
tasks (the recursive call on `rest`); the function is total, so no
exception propagates. -/
theorem C3_email_failure (cfg : EmailConfig) (smtp : Nat → Except String Unit)
    (today : Date) (k : Nat) (t : Task) (rest : List Task)
    (hdone : t.done = false) (hhor : dateSub t.deadline today ≤ 2)
    (hnot : t.notified = false) (hfail : (send_email cfg (smtp k)).1 = false) :
    notify_go cfg smtp today k (t :: rest) =
      ⟨approachingMsg t (dateSub t.deadline today) ::
         failMsg (send_email cfg (smtp k)).2 ::
         (notify_go cfg smtp today (k + 1) rest).msgs,
       { t with notified := true } :: (notify_go cfg smtp today (k + 1) rest).tasks,
       (mailSubject, mailBody t) :: (notify_go cfg smtp today (k + 1) rest).attempts⟩ := by
  simp only [notify_go]
  simp [hdone, hnot, hhor, hfail]

/-- Witness for C3: unconfigured email (so the send attempt fails with
"Email not configured.") on a pending task due tomorrow. -/
theorem C3_email_failure_witness :
    notify_go ⟨"", "", ""⟩ (fun _ => Except.ok ()) ⟨2024, 1, 1⟩ 0
        [⟨"HW", ⟨2024, 1, 2⟩, false, false⟩] =
      ⟨approachingMsg ⟨"HW", ⟨2024, 1, 2⟩, false, false⟩
           (dateSub ⟨2024, 1, 2⟩ ⟨2024, 1, 1⟩) ::
         failMsg (send_email ⟨"", "", ""⟩ ((fun _ => Except.ok ()) 0)).2 ::
         (notify_go ⟨"", "", ""⟩ (fun _ => Except.ok ()) ⟨2024, 1, 1⟩ 1 []).msgs,
       { (⟨"HW", ⟨2024, 1, 2⟩, false, false⟩ : Task) with notified := true } ::
         (notify_go ⟨"", "", ""⟩ (fun _ => Except.ok ()) ⟨2024, 1, 1⟩ 1 []).tasks,
       (mailSubject, mailBody ⟨"HW", ⟨2024, 1, 2⟩, false, false⟩) ::
         (notify_go ⟨"", "", ""⟩ (fun _ => Except.ok ()) ⟨2024, 1, 1⟩ 1 []).attempts⟩ :=
  C3_email_failure ⟨"", "", ""⟩ (fun _ => Except.ok ()) ⟨2024, 1, 1⟩ 0
    ⟨"HW", ⟨2024, 1, 2⟩, false, false⟩ [] rfl (by decide) rfl rfl

/-- C4: for a task that is not done, already notified and still within the
horizon, a further run emits the in-app approaching-deadline message again
but performs no email attempt: no attempt is recorded, the attempt counter
is not advanced, and the task passes through unchanged (so `notified`
stays `true` and, by this same equation, no later evaluation ever attempts
an email for it either). -/
theorem C4_notified_no_second_attempt (cfg : EmailConfig)
    (smtp : Nat → Except String Unit) (today : Date) (k : Nat) (t : Task)
    (rest : List Task) (hdone : t.done = false) (hnot : t.notified = true)
    (hhor : dateSub t.deadline today ≤ 2) :
    notify_go cfg smtp today k (t :: rest) =
      ⟨approachingMsg t (dateSub t.deadline today) ::
         (notify_go cfg smtp today k rest).msgs,
       t :: (notify_go cfg smtp today k rest).tasks,
       (notify_go cfg smtp today k rest).attempts⟩ := by
  simp only [notify_go]
  simp [hdone, hnot, hhor]

/-- Witness for C4: an already-notified pending task due tomorrow. -/
theorem C4_notified_no_second_attempt_witness :
    notify_go ⟨"a@x", "pw", "b@x"⟩ (fun _ => Except.ok ()) ⟨2024, 1, 1⟩ 0
        [⟨"HW", ⟨2024, 1, 2⟩, false, true⟩] =
      ⟨approachingMsg ⟨"HW", ⟨2024, 1, 2⟩, false, true⟩
           (dateSub ⟨2024, 1, 2⟩ ⟨2024, 1, 1⟩) ::
         (notify_go ⟨"a@x", "pw", "b@x"⟩ (fun _ => Except.ok ()) ⟨2024, 1, 1⟩ 0 []).msgs,
       (⟨"HW", ⟨2024, 1, 2⟩, false, true⟩ : Task) ::
         (notify_go ⟨"a@x", "pw", "b@x"⟩ (fun _ => Except.ok ()) ⟨2024, 1, 1⟩ 0 []).tasks,
       (notify_go ⟨"a@x", "pw", "b@x"⟩ (fun _ => Except.ok ()) ⟨2024, 1, 1⟩ 0 []).attempts⟩ :=
  C4_notified_no_second_attempt ⟨"a@x", "pw", "b@x"⟩ (fun _ => Except.ok ())
    ⟨2024, 1, 1⟩ 0 ⟨"HW", ⟨2024, 1, 2⟩, false, true⟩ [] rfl rfl (by decide)

/-- C5 counterexample: an overdue pending task (deadline 2024-01-08, today
2024-01-10, delta = -2) yields exactly one in-app message, and that
message does not contain the word "overdue" anywhere: overdueness shows
up only as the negative day count `-2`. -/
theorem C5_counterexample :
    (check_and_notify_tasks ⟨"a@x", "pw", "b@x"⟩ (fun _ => Except.ok ())
        ⟨2024, 1, 10⟩ [⟨"Essay", ⟨2024, 1, 8⟩, false, true⟩]).msgs =
      ["⚠️ 'Essay' deadline dalam -2 hari (deadline: 2024-01-08)"] ∧
    containsTok "overdue".toList
      "⚠️ 'Essay' deadline dalam -2 hari (deadline: 2024-01-08)".toList = false := by
  constructor
  · rfl
  · decide

/-- C5 as amended: an overdue pending task (negative delta) does satisfy
the inclusive horizon test `delta ≤ 2`, and the notifier's first message
for it is the standard approaching-deadline message citing the (negative)
day count and the deadline date; the literal word "overdue" is not part of
that message format. -/
theorem C5_overdue_within_horizon (cfg : EmailConfig)
    (smtp : Nat → Except String Unit) (today : Date) (k : Nat) (t : Task)
    (rest : List Task) (hdone : t.done = false)
    (hover : dateSub t.deadline today < 0) :
    dateSub t.deadline today ≤ 2 ∧
    (notify_go cfg smtp today k (t :: rest)).msgs.head? =
      some (approachingMsg t (dateSub t.deadline today)) := by
  have hhor : dateSub t.deadline today ≤ 2 := by omega
  refine ⟨hhor, ?_⟩
  by_cases hn : t.notified = true
  · simp only [notify_go]
    simp [hdone, hhor, hn]
  · have hn' : t.notified = false := by simpa using hn
    by_cases hr : (send_email cfg (smtp k)).1 = true
    · simp only [notify_go]
      simp [hdone, hhor, hn', hr]
    · have hr' : (send_email cfg (smtp k)).1 = false := by simpa using hr
      simp only [notify_go]
      simp [hdone, hhor, hn', hr']

/-- Witness for the amended C5: an overdue, already-notified pending
task. -/
theorem C5_overdue_within_horizon_witness :
    dateSub ⟨2024, 1, 8⟩ ⟨2024, 1, 10⟩ ≤ 2 ∧
    (notify_go ⟨"a@x", "pw", "b@x"⟩ (fun _ => Except.ok ()) ⟨2024, 1, 10⟩ 0
        [⟨"Essay", ⟨2024, 1, 8⟩, false, true⟩]).msgs.head? =
      some (approachingMsg ⟨"Essay", ⟨2024, 1, 8⟩, false, true⟩
        (dateSub ⟨2024, 1, 8⟩ ⟨2024, 1, 10⟩)) :=
  C5_overdue_within_horizon ⟨"a@x", "pw", "b@x"⟩ (fun _ => Except.ok ())
    ⟨2024, 1, 10⟩ 0 ⟨"Essay", ⟨2024, 1, 8⟩, false, true⟩ [] rfl (by decide)

/-- C6: a done task is skipped entirely (no message, no email attempt, no
field change) regardless of deadline or `notified` state, and a pending
task strictly outside the horizon (`delta > 2`) likewise contributes no
message, no attempt, and passes through unchanged. -/
theorem C6_skip_done_or_out_of_horizon (cfg : EmailConfig)
    (smtp : Nat → Except String Unit) (today : Date) (k : Nat) (t : Task)
    (rest : List Task)
    (h : t.done = true ∨ (t.done = false ∧ 2 < dateSub t.deadline today)) :
    notify_go cfg smtp today k (t :: rest) =
      ⟨(notify_go cfg smtp today k rest).msgs,
       t :: (notify_go cfg smtp today k rest).tasks,
       (notify_go cfg smtp today k rest).attempts⟩ := by
  rcases h with hdone | ⟨hdone, hfar⟩
  · simp only [notify_go]
    simp [hdone]
  · have hfar' : ¬ dateSub t.deadline today ≤ 2 := not_le.mpr hfar
    simp only [notify_go]
    simp [hdone, hfar']

/-- Witness for C6: a done, overdue, un-notified task (today 2024-01-01)
is skipped. -/
theorem C6_skip_done_or_out_of_horizon_witness :
    notify_go ⟨"", "", ""⟩ (fun _ => Except.ok ()) ⟨2024, 1, 1⟩ 0
        [⟨"Old", ⟨2023, 12, 1⟩, true, false⟩] =
      ⟨(notify_go ⟨"", "", ""⟩ (fun _ => Except.ok ()) ⟨2024, 1, 1⟩ 0 []).msgs,
       (⟨"Old", ⟨2023, 12, 1⟩, true, false⟩ : Task) ::
         (notify_go ⟨"", "", ""⟩ (fun _ => Except.ok ()) ⟨2024, 1, 1⟩ 0 []).tasks,
       (notify_go ⟨"", "", ""⟩ (fun _ => Except.ok ()) ⟨2024, 1, 1⟩ 0 []).attempts⟩ :=
  C6_skip_done_or_out_of_horizon ⟨"", "", ""⟩ (fun _ => Except.ok ())
    ⟨2024, 1, 1⟩ 0 ⟨"Old", ⟨2023, 12, 1⟩, true, false⟩ [] (Or.inl rfl)

lemma notify_go_frame (cfg : EmailConfig) (smtp : Nat → Except String Unit)
    (today : Date) : ∀ (ts : List Task) (k : Nat),
    List.Forall₂ frameEq ts (notify_go cfg smtp today k ts).tasks
  | [], k => by
    simp only [notify_go]
    exact List.Forall₂.nil
  | t :: ts, k => by
    by_cases hdone : t.done = true
    · have e : (notify_go cfg smtp today k (t :: ts)).tasks =
          t :: (notify_go cfg smtp today k ts).tasks := by
        simp only [notify_go]
        simp [hdone]
      rw [e]
      exact List.Forall₂.cons ⟨rfl, rfl, rfl⟩ (notify_go_frame cfg smtp today ts k)
    · have hdone' : t.done = false := by simpa using hdone
      by_cases hhor : dateSub t.deadline today ≤ 2
      · by_cases hn : t.notified = true
        · have e : (notify_go cfg smtp today k (t :: ts)).tasks =
              t :: (notify_go cfg smtp today k ts).tasks := by
            simp only [notify_go]
            simp [hdone', hhor, hn]
          rw [e]
          exact List.Forall₂.cons ⟨rfl, rfl, rfl⟩ (notify_go_frame cfg smtp today ts k)
        · have hn' : t.notified = false := by simpa using hn
          by_cases hr : (send_email cfg (smtp k)).1 = true
          · have e : (notify_go cfg smtp today k (t :: ts)).tasks =
                { t with notified := true } ::
                  (notify_go cfg smtp today (k + 1) ts).tasks := by
              simp only [notify_go]
              simp [hdone', hhor, hn', hr]
            rw [e]
            exact List.Forall₂.cons ⟨rfl, rfl, rfl⟩
              (notify_go_frame cfg smtp today ts (k + 1))
          · have hr' : (send_email cfg (smtp k)).1 = false := by simpa using hr
            have e : (notify_go cfg smtp today k (t :: ts)).tasks =
                { t with notified := true } ::
                  (notify_go cfg smtp today (k + 1) ts).tasks := by
              simp only [notify_go]
              simp [hdone', hhor, hn', hr']
            rw [e]
            exact List.Forall₂.cons ⟨rfl, rfl, rfl⟩
              (notify_go_frame cfg smtp today ts (k + 1))
      · have e : (notify_go cfg smtp today k (t :: ts)).tasks =
            t :: (notify_go cfg smtp today k ts).tasks := by
          simp only [notify_go]
          simp [hdone', hhor]
        rw [e]
        exact List.Forall₂.cons ⟨rfl, rfl, rfl⟩ (notify_go_frame cfg smtp today ts k)

/-- C9: the notifier mutates only the `notified` field: afterwards the
task list has the same length and order, and each task keeps its `title`,
`deadline` and `done` values (pairwise, position by position). -/
theorem C9_frame_only_notified (cfg : EmailConfig)
    (smtp : Nat → Except String Unit) (today : Date) (tasks : List Task) :
    List.Forall₂ frameEq tasks (check_and_notify_tasks cfg smtp today tasks).tasks ∧
    (check_and_notify_tasks cfg smtp today tasks).tasks.length = tasks.length := by
  have h := notify_go_frame cfg smtp today tasks 0
  exact ⟨h, (List.Forall₂.length_eq h).symm⟩

/-- C10: with an incomplete email configuration (any of the three fields
empty), `send_email` returns failure `"Email not configured."` regardless
of the SMTP outcome (no delivery is attempted), and an urgent pending task
evaluated under it receives the approaching-deadline message plus the
delivery-failure message and still gets `notified := true` — its single
email attempt is consumed by the misconfiguration. -/
theorem C10_unconfigured_consumes_attempt (cfg : EmailConfig)
    (smtp : Nat → Except String Unit) (today : Date) (k : Nat) (t : Task)
    (rest : List Task)
    (hcfg : cfg.sender = "" ∨ cfg.password = "" ∨ cfg.recipient = "")
    (hdone : t.done = false) (hnot : t.notified = false)
    (hhor : dateSub t.deadline today ≤ 2) :
    send_email cfg (smtp k) = (false, "Email not configured.") ∧
    notify_go cfg smtp today k (t :: rest) =
      ⟨approachingMsg t (dateSub t.deadline today) ::
         failMsg "Email not configured." ::
         (notify_go cfg smtp today (k + 1) rest).msgs,
       { t with notified := true } :: (notify_go cfg smtp today (k + 1) rest).tasks,
       (mailSubject, mailBody t) :: (notify_go cfg smtp today (k + 1) rest).attempts⟩ := by
  have hsend : ∀ a, send_email cfg a = (false, "Email not configured.") := by
    intro a
    unfold send_email
    rcases hcfg with h | h | h <;> simp [h]
  refine ⟨hsend _, ?_⟩
  simp only [notify_go]
  simp [hdone, hnot, hhor, hsend]

/-- Witness for C10: sender configured but password and recipient empty,
pending task due today. -/
theorem C10_unconfigured_consumes_attempt_witness :
    send_email ⟨"a@x", "", ""⟩ ((fun _ => Except.ok ()) 0) =
      (false, "Email not configured.") ∧
    notify_go ⟨"a@x", "", ""⟩ (fun _ => Except.ok ()) ⟨2024, 1, 1⟩ 0
        [⟨"HW", ⟨2024, 1, 1⟩, false, false⟩] =
      ⟨approachingMsg ⟨"HW", ⟨2024, 1, 1⟩, false, false⟩
           (dateSub ⟨2024, 1, 1⟩ ⟨2024, 1, 1⟩) ::
         failMsg "Email not configured." ::
         (notify_go ⟨"a@x", "", ""⟩ (fun _ => Except.ok ()) ⟨2024, 1, 1⟩ 1 []).msgs,
       { (⟨"HW", ⟨2024, 1, 1⟩, false, false⟩ : Task) with notified := true } ::
         (notify_go ⟨"a@x", "", ""⟩ (fun _ => Except.ok ()) ⟨2024, 1, 1⟩ 1 []).tasks,
       (mailSubject, mailBody ⟨"HW", ⟨2024, 1, 1⟩, false, false⟩) ::
         (notify_go ⟨"a@x", "", ""⟩ (fun _ => Except.ok ()) ⟨2024, 1, 1⟩ 1 []).attempts⟩ :=
  C10_unconfigured_consumes_attempt ⟨"a@x", "", ""⟩ (fun _ => Except.ok ())
    ⟨2024, 1, 1⟩ 0 ⟨"HW", ⟨2024, 1, 1⟩, false, false⟩ []
    (Or.inr (Or.inl rfl)) rfl rfl (by decide)

end StudyOrg
